import Mathlib

/-!
Verification development for the TTS worker microservice (`src/worker/main.py`)
of the audio-questionnaire repository.

The Python source is shallowly embedded:
* Python strings are modelled as `List Char`; `str.strip`, `str.rfind`,
  `str.split`, slicing and `int(...)` are modelled by executable Lean
  functions below (`pyStrip`, `rfindIdx`, `pySplit`, `pyParseInt`).
* The external token codec `decoder.convert_to_audio` is an opaque parameter
  `decoder : List Int → Nat → Option ByteChunk`.
* Network input is modelled by `ApiResponse`: either a request-time failure
  (the `requests.exceptions.RequestException` branch) or the list of raw
  SSE lines of the HTTP response body; JSON decoding of a `data:` line is
  an opaque parameter `jsonExtract`.
* Process-wide engine availability (which Kokoro pipelines initialised,
  whether the `decoder` module imported) and the outcome of the opaque
  Kokoro synthesis call are fields of `WorkerEnv`.
* File-system details are abstracted: a WAV file is represented by the list
  of frames written into it; a file with at least one written frame is
  non-empty (the 44-byte WAV header makes even a frameless file non-empty,
  which is why the code additionally tracks `written_anything_to_wav`).
-/

namespace AudioWorker

/-- One chunk of PCM bytes produced by the token codec. -/
abbrev ByteChunk := List Nat

/-- `CUSTOM_TOKEN_PREFIX = "<custom_token_"` from `src/worker/main.py` line 86
(renamed here to avoid a keyword-like suffix). -/
def CUSTOM_TOKEN_START : List Char := "<custom_token_".data

/-- The `"data: "` head of a server-sent-event line (line 124 of the source). -/
def SSE_DATA_HEAD : List Char := "data: ".data

/-- Model of Python `str.strip()`: drop whitespace from both ends. -/
def pyStrip (s : List Char) : List Char :=
  ((s.dropWhile Char.isWhitespace).reverse.dropWhile Char.isWhitespace).reverse

/-- Model of Python `str.rfind(pat)`: the largest index at which `pat`
occurs in `s`, or `none` when it does not occur (Python returns `-1`). -/
def rfindIdx (pat s : List Char) : Option Nat :=
  ((List.range (s.length + 1)).filter (fun i => pat.isPrefixOf (s.drop i))).getLast?

/-- Whether `pat` occurs anywhere in `s` (used to state fragment-level facts). -/
def containsSeq (pat s : List Char) : Bool :=
  (List.range (s.length + 1)).any (fun i => pat.isPrefixOf (s.drop i))

/-- Tail of a Python integer numeral: digits, with single underscores allowed
between digits (`int("1_2") = 12`, `int("1__2")` and `int("1_")` fail). -/
def numTail : List Char → Bool
  | [] => true
  | c :: rest =>
    if c = '_' then
      match rest with
      | [] => false
      | c2 :: rest2 => c2.isDigit && numTail rest2
    else c.isDigit && numTail rest

/-- A valid unsigned Python integer numeral body: non-empty, starts with a
digit, then `numTail`. -/
def numCore (l : List Char) : Bool :=
  match l with
  | [] => false
  | c :: rest => c.isDigit && numTail rest

/-- Numeric value of a numeral body, skipping underscores. -/
def numVal (l : List Char) : Int :=
  (l.foldl (fun acc c => if c = '_' then acc else acc * 10 + (c.toNat - 48)) 0 : Nat)

/-- Model of Python `int(s)` on a string: strip whitespace, optional sign,
then a digit sequence with optional single underscores between digits;
`none` models the `ValueError` branch. -/
def pyParseInt (s : List Char) : Option Int :=
  let t := pyStrip s
  match t with
  | [] => none
  | c :: rest =>
    if c = '+' then (if numCore rest then some (numVal rest) else none)
    else if c = '-' then (if numCore rest then some (-(numVal rest)) else none)
    else (if numCore t then some (numVal t) else none)

/-- Embedding of `turn_token_into_id` (`src/worker/main.py` lines 138-148):
strip the string, find the last occurrence of the custom-token marker head,
and if the suffix from there ends in `>` parse the embedded numeral `n`,
returning `n - 10 - (index % 7) * 4096`; otherwise `none`. -/
def turn_token_into_id (token_string : List Char) (index : Nat) : Option Int :=
  let t := pyStrip token_string
  match rfindIdx CUSTOM_TOKEN_START t with
  | none => none
  | some k =>
    let last_token := t.drop k
    if CUSTOM_TOKEN_START.isPrefixOf last_token ∧ last_token.getLast? = some '>' then
      match pyParseInt ((last_token.drop CUSTOM_TOKEN_START.length).dropLast) with
      | some n => some (n - 10 - ((index % 7 : Nat) : Int) * 4096)
      | none => none
    else none

/-- First index at which `pat` occurs in `s`, if any (Python `str.find`). -/
def findIdx (pat s : List Char) : Option Nat :=
  ((List.range (s.length + 1)).filter (fun i => pat.isPrefixOf (s.drop i))).head?

/-- Fuel-driven worker for `pySplit`. -/
def pySplitAux (pat : List Char) : Nat → List Char → List (List Char)
  | 0, s => [s]
  | fuel + 1, s =>
    match findIdx pat s with
    | none => [s]
    | some i => s.take i :: pySplitAux pat fuel (s.drop (i + pat.length))

/-- Model of Python `s.split(pat)` for a non-empty separator: split on every
non-overlapping occurrence, left to right. -/
def pySplit (pat s : List Char) : List (List Char) :=
  pySplitAux pat (s.length + 1) s

/-- The candidate marker substrings the assembler loop builds from one text
chunk (`src/worker/main.py` lines 154-157): split on the marker head, skip
the leading part when the chunk does not itself start with the marker, and
re-attach the marker head to every remaining part. -/
def candidateTokens (chunk : List Char) : List (List Char) :=
  (pySplit CUSTOM_TOKEN_START chunk).enum.filterMap (fun p =>
    if p.1 = 0 ∧ ¬ CUSTOM_TOKEN_START.isPrefixOf chunk then none
    else some (if CUSTOM_TOKEN_START.isPrefixOf p.2 then p.2
               else CUSTOM_TOKEN_START ++ p.2))

/-- State of the streaming audio assembler
(`tokens_decoder_async_generator`, lines 150-163): the decode-window
`buffer` and accepted-token `count` of the source, plus two histories that
the embedding records for specification purposes — `calls`, the arguments
of every invocation of the token codec in order, and `output`, the audio
chunks yielded so far. -/
structure DecState where
  buffer : List Int
  count : Nat
  calls : List (List Int × Nat)
  output : List ByteChunk
deriving DecidableEq

def initState : DecState := ⟨[], 0, [], []⟩

/-- One iteration of the inner loop of `tokens_decoder_async_generator`
(lines 158-163) on a candidate marker string `tok`: recover a token ID at
index `count`; if it is a positive ID, append it to the window, bump the
counter, and when the counter is a multiple of 7 above 27 invoke the codec
on the last 28 window entries. -/
def stepToken (decoder : List Int → Nat → Option ByteChunk)
    (st : DecState) (tok : List Char) : DecState :=
  match turn_token_into_id tok st.count with
  | none => st
  | some token_id =>
    if 0 < token_id then
      let buffer := st.buffer ++ [token_id]
      let count := st.count + 1
      if count % 7 = 0 ∧ 27 < count then
        let window := buffer.drop (buffer.length - 28)
        match decoder window count with
        | some audio =>
          ⟨buffer, count, st.calls ++ [(window, count)], st.output ++ [audio]⟩
        | none => ⟨buffer, count, st.calls ++ [(window, count)], st.output⟩
      else ⟨buffer, count, st.calls, st.output⟩
    else st

/-- Processing of one text chunk of the token stream (lines 153-163). -/
def processChunk (decoder : List Int → Nat → Option ByteChunk)
    (st : DecState) (chunk : List Char) : DecState :=
  (candidateTokens chunk).foldl (stepToken decoder) st

/-- The complete run of the streaming audio assembler over a fragment
stream, starting from the empty window. -/
def runAssembler (decoder : List Int → Nat → Option ByteChunk)
    (fragments : List (List Char)) : DecState :=
  fragments.foldl (processChunk decoder) initState

/-- Embedding of `tokens_decoder_async_generator` (lines 150-163) as the
list of audio chunks it yields. When the decoder module is unavailable the
generator yields a single empty bytes object and stops (line 151). -/
def tokens_decoder_async_generator (decoderAvailable : Bool)
    (decoder : List Int → Nat → Option ByteChunk)
    (fragments : List (List Char)) : List ByteChunk :=
  if decoderAvailable then (runAssembler decoder fragments).output else [[]]

/-- Outcome of one raw SSE line after JSON decoding, abstracting the `json`
library: `none` models a `json.JSONDecodeError`; `some none` a JSON object
without the `choices[0].delta.content` / `choices[0].text` fields;
`some (some t)` a decoded token text `t`. -/
abbrev JsonExtract := List Char → Option (Option (List Char))

/-- The `for line in response.iter_lines()` loop of
`generate_tokens_from_api` (lines 121-135): keep non-empty `data: ` lines,
stop at `[DONE]`, and yield each decoded non-empty token text. -/
def sseLines (jsonExtract : JsonExtract) : List (List Char) → List (List Char)
  | [] => []
  | line :: rest =>
    if line ≠ [] then
      if SSE_DATA_HEAD.isPrefixOf line then
        let data_str := line.drop 6
        if pyStrip data_str = "[DONE]".data then []
        else
          match jsonExtract data_str with
          | some (some t) => if t ≠ [] then t :: sseLines jsonExtract rest
                             else sseLines jsonExtract rest
          | _ => sseLines jsonExtract rest
      else sseLines jsonExtract rest
    else sseLines jsonExtract rest

/-- The streaming HTTP interaction of `generate_tokens_from_api`: either the
`requests.post` call raises at issue time (`failure`) or it yields a list of
raw response lines. -/
inductive ApiResponse where
  | failure
  | success (lines : List (List Char))

/-- Embedding of `generate_tokens_from_api` (lines 107-136) as the list of
text fragments it yields: a request-time `RequestException` is caught and
the generator returns without yielding (lines 114-120). -/
def generate_tokens_from_api (jsonExtract : JsonExtract) :
    ApiResponse → List (List Char)
  | .failure => []
  | .success lines => sseLines jsonExtract lines

/-- Result of `generate_speech_via_api_and_decode`: its boolean return value
`audio_written`, whether the streaming HTTP request was started at all, and
the audio frames written to the WAV file. -/
structure SynthOutcome where
  audio_written : Bool
  httpIssued : Bool
  frames : List ByteChunk
deriving DecidableEq

/-- Embedding of `generate_speech_via_api_and_decode` (lines 165-188).
If the decoder module is unavailable it returns `False` at once (line 166),
before creating the worker thread, so no HTTP request is made and no file
is written. Otherwise the thread drives the assembler; only non-empty byte
chunks are written as frames (line 180), and `audio_written` becomes true
exactly when at least one frame was written (line 182: a WAV file with a
written frame exists and is non-empty). -/
def generate_speech_via_api_and_decode (decoderAvailable : Bool)
    (decoder : List Int → Nat → Option ByteChunk)
    (jsonExtract : JsonExtract) (resp : ApiResponse) : SynthOutcome :=
  if decoderAvailable then
    let fragments := generate_tokens_from_api jsonExtract resp
    let chunks := tokens_decoder_async_generator decoderAvailable decoder fragments
    let frames := chunks.filter (fun b => ¬ b.isEmpty)
    ⟨¬ frames.isEmpty, true, frames⟩
  else ⟨false, false, []⟩

/-- Per-language Kokoro configuration entry (voice defaults from lines 21-29;
the environment-variable overrides for voices are irrelevant to control
flow and the defaults are used). -/
structure KokoroCfg where
  kokoro_lang_code : String
  voice : String
deriving DecidableEq

/-- `KOKORO_LANGUAGE_CONFIG` (lines 20-30). -/
def KOKORO_LANGUAGE_CONFIG : List (String × KokoroCfg) :=
  [("en", ⟨"a", "af_heart"⟩), ("en-gb", ⟨"b", "bf_heart"⟩),
   ("es", ⟨"e", "ef_heart"⟩), ("fr", ⟨"f", "ff_heart"⟩),
   ("hi", ⟨"h", "hf_heart"⟩), ("it", ⟨"i", "if_heart"⟩),
   ("ja", ⟨"j", "jf_heart"⟩), ("pt-br", ⟨"p", "pf_heart"⟩),
   ("zh", ⟨"z", "zf_heart"⟩)]

/-- Per-language Orpheus API configuration entry (lines 218-219). The
float-valued generation parameters (temperature, top_p, repetition penalty)
never influence control flow and are abstracted away. -/
structure OrphCfg where
  api_model_identifier : String
  voice : String
  max_tokens : Int
  sample_rate : Int
deriving DecidableEq

/-- `ORPHEUS_LANGUAGE_API_SETUP` (lines 217-220), with the environment
defaults of lines 83 and 85. -/
def ORPHEUS_LANGUAGE_API_SETUP : List (String × OrphCfg) :=
  [("en", ⟨"orpheus-3b-0.1-ft", "tara", 2048, 24000⟩),
   ("de", ⟨"3b-de-ft-research_release", "jana", 2048, 24000⟩)]

/-- The process-wide state fixed at worker startup together with the opaque
behaviour of the external systems during one request:
`kokoroPipelines` is the set of Kokoro language codes whose pipeline
initialised (`_kokoro_pipelines`, empty when the import failed);
`decoderAvailable` is `DECODER_AVAILABLE` (lines 88-99); `kokoroResult`
models the combined outcome of `generate_speech_with_kokoro` and the
non-empty-file check of line 283; `kokoroBytes` the audio it wrote;
`decoder`, `jsonExtract` and `orpheusResp` drive the streaming path. -/
structure WorkerEnv where
  kokoroPipelines : List String
  decoderAvailable : Bool
  kokoroResult : Bool
  kokoroBytes : List ByteChunk
  decoder : List Int → Nat → Option ByteChunk
  jsonExtract : JsonExtract
  orpheusResp : ApiResponse

/-- `KOKORO_TTS_AVAILABLE` (lines 53-54): true exactly when at least one
Kokoro pipeline initialised. -/
def KOKORO_TTS_AVAILABLE (env : WorkerEnv) : Bool :=
  ¬ env.kokoroPipelines.isEmpty

/-- `_orpheus_api_configs` (lines 221-228): populated from
`ORPHEUS_LANGUAGE_API_SETUP` only when the decoder module imported; every
entry of the fixed setup dict has both required keys, so all entries are
copied. -/
def orpheus_api_configs (env : WorkerEnv) : List (String × OrphCfg) :=
  if env.decoderAvailable then ORPHEUS_LANGUAGE_API_SETUP else []

/-- `ORPHEUS_TTS_AVAILABLE` (line 226): set exactly when the decoder module
imported and `_orpheus_api_configs` ended up non-empty. -/
def ORPHEUS_TTS_AVAILABLE (env : WorkerEnv) : Bool :=
  env.decoderAvailable && ¬ (orpheus_api_configs env).isEmpty

/-- The HTTP outcome of `POST /synthesize-speech`: a streaming WAV response
(tagged with the engine that produced it) or an `HTTPException` status.
Detail strings, headers and temp-file cleanup are abstracted. -/
inductive TtsResponse where
  | audio (method : String) (content : List ByteChunk)
  | error (status : Nat)
deriving DecidableEq

/-- Lines 289-314 of `synthesize_speech_endpoint`: the block entered when no
audio has been produced yet. `method` is `synthesis_method_used` at entry
and `kokoroCfgPresent` records whether `KOKORO_LANGUAGE_CONFIG` has an entry
for the language (both feed the dead 503 guard of line 303, which this
embedding keeps faithfully). -/
def orpheusFallbackBlock (env : WorkerEnv) (language : String)
    (method : String) (kokoroCfgPresent : Bool) : TtsResponse :=
  let ocfg := (orpheus_api_configs env).lookup language
  if ORPHEUS_TTS_AVAILABLE env ∧ ocfg.isSome then
    let outcome := generate_speech_via_api_and_decode env.decoderAvailable
      env.decoder env.jsonExtract env.orpheusResp
    if outcome.audio_written then .audio "orpheus" outcome.frames
    else .error 500
  else if method = "none" then .error 400
  else if ¬ ORPHEUS_TTS_AVAILABLE env ∧ method = "none"
          ∧ ¬ (KOKORO_TTS_AVAILABLE env ∧ kokoroCfgPresent) then .error 503
  else .error 500

/-- Embedding of `synthesize_speech_endpoint` (lines 271-320). If Kokoro is
available and configured for the language and its pipeline is loaded, the
Kokoro attempt either yields the audio response or raises a 500
`HTTPException` (lines 283-286); otherwise control reaches the Orpheus
fallback block with `synthesis_method_used` still `"none"`. -/
def synthesize_speech_endpoint (env : WorkerEnv) (language : String) :
    TtsResponse :=
  match KOKORO_LANGUAGE_CONFIG.lookup language with
  | some kcfg =>
    if KOKORO_TTS_AVAILABLE env then
      if env.kokoroPipelines.contains kcfg.kokoro_lang_code then
        if env.kokoroResult then .audio "kokoro" env.kokoroBytes
        else .error 500
      else orpheusFallbackBlock env language "none" true
    else orpheusFallbackBlock env language "none" true
  | none => orpheusFallbackBlock env language "none" false

/-- A concrete environment: the Kokoro pipeline for English is loaded but
the Kokoro synthesis attempt fails; the decoder module imported; the
streaming API delivers 28 well-formed custom tokens, so the Orpheus path
would succeed if it were tried. -/
def envKokoroFails : WorkerEnv where
  kokoroPipelines := ["a"]
  decoderAvailable := true
  kokoroResult := false
  kokoroBytes := []
  decoder := fun _ _ => some [1]
  jsonExtract := fun s => some (some s)
  orpheusResp := .success (List.replicate 28 ("data: <custom_token_30000>".data))

/-- A concrete environment in which no TTS engine is available at all: no
Kokoro pipeline initialised and the decoder module failed to import. -/
def envNoEngines : WorkerEnv where
  kokoroPipelines := []
  decoderAvailable := false
  kokoroResult := false
  kokoroBytes := []
  decoder := fun _ _ => none
  jsonExtract := fun _ => none
  orpheusResp := .failure

/-- Number of decoder invocations after `n` accepted tokens:
`max(0, (n - 28) / 7 + 1)` — one call at every counter value that is a
multiple of 7 exceeding 27. -/
def decodeCallCount (n : Nat) : Nat :=
  if 28 ≤ n then (n - 28) / 7 + 1 else 0

/-- Per-call record soundness: every recorded decoder invocation happened at
a counter value that is a multiple of 7 above 27, and consumed exactly the
last 28 entries of the window as it stood at that moment (expressed against
the current buffer, of which the then-current window is the prefix of
length `wc.2`). -/
def CallsOk (st : DecState) : Prop :=
  ∀ wc ∈ st.calls, wc.2 % 7 = 0 ∧ 27 < wc.2 ∧ wc.2 ≤ st.count ∧
    wc.1 = (st.buffer.take wc.2).drop (wc.2 - 28) ∧ wc.1.length = 28

/-- The assembler invariant: the counter equals the window length, the
number of recorded decoder calls matches the cadence formula, and every
recorded call is sound. -/
def Inv (st : DecState) : Prop :=
  st.count = st.buffer.length ∧
  st.calls.length = decodeCallCount st.count ∧ CallsOk st

def cadenceDecoder : List Int → Nat → Option ByteChunk := fun _ _ => some []

def cadenceFrags : List (List Char) :=
  List.replicate 35 ("<custom_token_30000>".data)

def cadenceCall : List Int × Nat :=
  (runAssembler cadenceDecoder cadenceFrags).calls.getD 0 ([], 0)

/-! ## Decode cadence and window invariants -/

theorem decodeCallCount_succ (n : Nat) :
    decodeCallCount (n + 1) =
      decodeCallCount n + (if (n + 1) % 7 = 0 ∧ 27 < n + 1 then 1 else 0) := by
  unfold decodeCallCount
  split_ifs <;> omega

theorem take_append_le {α : Type} (l₁ l₂ : List α) (n : Nat)
    (h : n ≤ l₁.length) : (l₁ ++ l₂).take n = l₁.take n := by
  rw [List.take_append_eq_append_take, Nat.sub_eq_zero_of_le h,
    List.take_zero, List.append_nil]

theorem initState_inv : Inv initState := by
  refine ⟨rfl, by simp [initState, decodeCallCount], ?_⟩
  intro wc hwc
  simp [initState] at hwc

theorem stepToken_inv (decoder : List Int → Nat → Option ByteChunk)
    (st : DecState) (tok : List Char) (h : Inv st) :
    Inv (stepToken decoder st tok) := by
  obtain ⟨hlen, hcalls, hok⟩ := h
  unfold stepToken
  cases hid : turn_token_into_id tok st.count with
  | none => exact ⟨hlen, hcalls, hok⟩
  | some token_id =>
    simp only
    by_cases hpos : 0 < token_id
    · simp only [if_pos hpos]
      by_cases hc : (st.count + 1) % 7 = 0 ∧ 27 < st.count + 1
      · have hlen' : (st.buffer ++ [token_id]).length = st.count + 1 := by
          simp [hlen]
        have hwin : (st.buffer ++ [token_id]).drop ((st.buffer ++ [token_id]).length - 28)
            = ((st.buffer ++ [token_id]).take (st.count + 1)).drop (st.count + 1 - 28) := by
          rw [hlen', ← hlen']
          rw [List.take_length]
        have hnew : ∀ (calls' : List (List Int × Nat)),
            calls' = st.calls ++
              [((st.buffer ++ [token_id]).drop ((st.buffer ++ [token_id]).length - 28),
                st.count + 1)] →
            ∀ (out' : List ByteChunk),
            Inv ⟨st.buffer ++ [token_id], st.count + 1, calls', out'⟩ := by
          intro calls' hcalls' out'
          refine ⟨hlen'.symm, ?_, ?_⟩
          · rw [hcalls', List.length_append, List.length_singleton, hcalls,
              decodeCallCount_succ, if_pos hc]
          · intro wc hwc
            rw [hcalls'] at hwc
            rcases List.mem_append.mp hwc with hold | hnew
            · obtain ⟨h1, h2, h3, h4, h5⟩ := hok wc hold
              refine ⟨h1, h2, show wc.2 ≤ st.count + 1 by omega, ?_, h5⟩
              rw [take_append_le _ _ _ (by omega)]
              exact h4
            · rcases List.mem_singleton.mp hnew with rfl
              refine ⟨hc.1, hc.2, le_refl _, hwin, ?_⟩
              simp only [List.length_drop, hlen']
              omega
        cases hdec : decoder ((st.buffer ++ [token_id]).drop
            ((st.buffer ++ [token_id]).length - 28)) (st.count + 1) with
        | some audio =>
          simp only [if_pos hc, hdec]
          exact hnew _ rfl _
        | none =>
          simp only [if_pos hc, hdec]
          exact hnew _ rfl _
      · simp only [if_neg hc]
        refine ⟨by simp [hlen], ?_, ?_⟩
        · rw [hcalls, decodeCallCount_succ, if_neg hc]
          omega
        · intro wc hwc
          obtain ⟨h1, h2, h3, h4, h5⟩ := hok wc hwc
          refine ⟨h1, h2, show wc.2 ≤ st.count + 1 by omega, ?_, h5⟩
          rw [take_append_le _ _ _ (by omega)]
          exact h4
    · simp only [if_neg hpos]
      exact ⟨hlen, hcalls, hok⟩

theorem foldTokens_inv (decoder : List Int → Nat → Option ByteChunk)
    (toks : List (List Char)) (st : DecState) (h : Inv st) :
    Inv (toks.foldl (stepToken decoder) st) := by
  induction toks generalizing st with
  | nil => exact h
  | cons t ts ih => exact ih _ (stepToken_inv decoder st t h)

theorem processChunk_inv (decoder : List Int → Nat → Option ByteChunk)
    (st : DecState) (chunk : List Char) (h : Inv st) :
    Inv (processChunk decoder st chunk) :=
  foldTokens_inv decoder _ st h

theorem runAssembler_inv (decoder : List Int → Nat → Option ByteChunk)
    (fragments : List (List Char)) : Inv (runAssembler decoder fragments) := by
  unfold runAssembler
  have h : ∀ (fs : List (List Char)) (st : DecState), Inv st →
      Inv (fs.foldl (processChunk decoder) st) := by
    intro fs
    induction fs with
    | nil => exact fun st h => h
    | cons f fs ih => exact fun st h => ih _ (processChunk_inv decoder st f h)
  exact h fragments initState initState_inv

/-- The window only ever grows by appending: each step leaves the buffer a
prefix of the next buffer. -/
theorem stepToken_buffer_grows (decoder : List Int → Nat → Option ByteChunk)
    (st : DecState) (tok : List Char) :
    st.buffer <+: (stepToken decoder st tok).buffer := by
  unfold stepToken
  cases turn_token_into_id tok st.count with
  | none => exact List.prefix_refl _
  | some token_id =>
    simp only
    by_cases hpos : 0 < token_id
    · simp only [if_pos hpos]
      by_cases hc : (st.count + 1) % 7 = 0 ∧ 27 < st.count + 1
      · cases decoder ((st.buffer ++ [token_id]).drop
            ((st.buffer ++ [token_id]).length - 28)) (st.count + 1) with
        | some audio => simp only [if_pos hc]; exact List.prefix_append _ _
        | none => simp only [if_pos hc]; exact List.prefix_append _ _
      · simp only [if_neg hc]; exact List.prefix_append _ _
    · simp only [if_neg hpos]; exact List.prefix_refl _

theorem foldTokens_buffer_grows (decoder : List Int → Nat → Option ByteChunk)
    (toks : List (List Char)) (st : DecState) :
    st.buffer <+: (toks.foldl (stepToken decoder) st).buffer := by
  induction toks generalizing st with
  | nil => exact List.prefix_refl _
  | cons t ts ih => exact (stepToken_buffer_grows decoder st t).trans (ih _)

theorem runAssembler_buffer_grows (decoder : List Int → Nat → Option ByteChunk)
    (fs₁ fs₂ : List (List Char)) :
    (runAssembler decoder fs₁).buffer <+: (runAssembler decoder (fs₁ ++ fs₂)).buffer := by
  unfold runAssembler
  rw [List.foldl_append]
  generalize fs₁.foldl (processChunk decoder) initState = st
  induction fs₂ generalizing st with
  | nil => exact List.prefix_refl _
  | cons f fs ih =>
    exact (foldTokens_buffer_grows decoder _ st).trans (ih _)

/-! ## Discarded fragments leave the assembler state unchanged -/

theorem stepToken_discard (decoder : List Int → Nat → Option ByteChunk)
    (st : DecState) (tok : List Char)
    (h : turn_token_into_id tok st.count = none ∨
         ∃ v, turn_token_into_id tok st.count = some v ∧ v ≤ 0) :
    stepToken decoder st tok = st := by
  unfold stepToken
  rcases h with h | ⟨v, hv, hle⟩
  · rw [h]
  · rw [hv]
    simp only
    rw [if_neg (by omega)]

theorem pySplit_no_occurrence (pat s : List Char)
    (h : ∀ i, pat.isPrefixOf (s.drop i) = false) : pySplit pat s = [s] := by
  have hfind : findIdx pat s = none := by
    unfold findIdx
    rw [List.head?_eq_none_iff, List.filter_eq_nil_iff]
    intro a _
    simp [h a]
  unfold pySplit pySplitAux
  rw [hfind]

theorem candidateTokens_no_marker (chunk : List Char)
    (h : containsSeq CUSTOM_TOKEN_START chunk = false) :
    candidateTokens chunk = [] := by
  have hall : ∀ i, CUSTOM_TOKEN_START.isPrefixOf (chunk.drop i) = false := by
    intro i
    by_cases hi : i < chunk.length + 1
    · have := List.any_eq_false.mp h i (List.mem_range.mpr hi)
      rwa [Bool.not_eq_true] at this
    · rw [List.drop_eq_nil_of_le (by omega)]
      decide
  have h0 : CUSTOM_TOKEN_START.isPrefixOf chunk = false := by
    have := hall 0
    rwa [List.drop_zero] at this
  unfold candidateTokens
  rw [pySplit_no_occurrence _ _ hall]
  simp [h0]

theorem processChunk_no_marker (decoder : List Int → Nat → Option ByteChunk)
    (st : DecState) (chunk : List Char)
    (h : containsSeq CUSTOM_TOKEN_START chunk = false) :
    processChunk decoder st chunk = st := by
  unfold processChunk
  rw [candidateTokens_no_marker chunk h]
  rfl

/-! ## Characterisation of `rfindIdx` (Python `str.rfind`) -/

theorem filter_range_getLast_eq (P : Nat → Bool) (n k : Nat) (hk : k < n)
    (hP : P k = true) (hmax : ∀ j, k < j → j < n → P j = false) :
    ((List.range n).filter P).getLast? = some k := by
  induction n with
  | zero => omega
  | succ m ih =>
    rw [List.range_succ, List.filter_append]
    by_cases hkm : k = m
    · subst hkm
      rw [show List.filter P [k] = [k] by simp [hP], List.getLast?_concat]
    · rw [show List.filter P [m] = [] by simp [hmax m (by omega) (by omega)],
        List.append_nil]
      exact ih (by omega) (fun j hj hjm => hmax j hj (by omega))

theorem filter_range_getLast_spec (P : Nat → Bool) (n k : Nat)
    (h : ((List.range n).filter P).getLast? = some k) :
    P k = true ∧ k < n ∧ ∀ j, j < n → P j = true → j ≤ k := by
  induction n with
  | zero => simp [List.range_zero] at h
  | succ m ih =>
    rw [List.range_succ, List.filter_append] at h
    by_cases hm : P m = true
    · rw [show List.filter P [m] = [m] by simp [hm], List.getLast?_concat] at h
      obtain rfl : m = k := by injection h
      exact ⟨hm, by omega, fun j hj _ => by omega⟩
    · have hm' : P m = false := by simpa using hm
      rw [show List.filter P [m] = [] by simp [hm'], List.append_nil] at h
      obtain ⟨h1, h2, h3⟩ := ih h
      refine ⟨h1, by omega, fun j hj hPj => ?_⟩
      by_cases hjm : j = m
      · subst hjm
        exact absurd hPj hm
      · exact h3 j (by omega) hPj

theorem rfindIdx_some (pat s : List Char) (k : Nat) (hpat : pat ≠ [])
    (h : rfindIdx pat s = some k) :
    pat.isPrefixOf (s.drop k) = true ∧
    ∀ j, pat.isPrefixOf (s.drop j) = true → j ≤ k := by
  unfold rfindIdx at h
  obtain ⟨h1, h2, h3⟩ := filter_range_getLast_spec _ _ _ h
  refine ⟨h1, fun j hj => ?_⟩
  by_cases hjn : j < s.length + 1
  · exact h3 j hjn hj
  · exfalso
    rw [List.drop_eq_nil_of_le (by omega)] at hj
    cases pat with
    | nil => exact hpat rfl
    | cons c cs => simp [List.isPrefixOf] at hj

theorem rfindIdx_intro (pat s : List Char) (k : Nat) (hk : k ≤ s.length)
    (hP : pat.isPrefixOf (s.drop k) = true)
    (hmax : ∀ j, k < j → pat.isPrefixOf (s.drop j) = false) :
    rfindIdx pat s = some k := by
  unfold rfindIdx
  exact filter_range_getLast_eq _ _ _ (by omega) hP (fun j hj _ => hmax j hj)

/-! ## Characters of a parseable numeral -/

theorem numTail_no_lt : (l : List Char) → numTail l = true → '<' ∉ l
  | [], _, hmem => by simp at hmem
  | c0 :: rest, h, hmem => by
    unfold numTail at h
    by_cases h0 : c0 = '_'
    · rw [if_pos h0] at h
      cases rest with
      | nil => simp at h
      | cons c2 rest2 =>
        simp only [Bool.and_eq_true] at h
        rcases List.mem_cons.mp hmem with h1 | hmem2
        · exact absurd (h1.trans h0) (by decide)
        · rcases List.mem_cons.mp hmem2 with h2 | hmem3
          · rw [← h2] at h
            exact absurd h.1 (by decide)
          · exact numTail_no_lt rest2 h.2 hmem3
    · rw [if_neg h0] at h
      simp only [Bool.and_eq_true] at h
      rcases List.mem_cons.mp hmem with h1 | hmem2
      · rw [← h1] at h
        exact absurd h.1 (by decide)
      · exact numTail_no_lt rest h.2 hmem2

theorem numCore_no_lt (l : List Char) (h : numCore l = true) : '<' ∉ l := by
  cases l with
  | nil => simp
  | cons c rest =>
    unfold numCore at h
    simp only [Bool.and_eq_true] at h
    intro hmem
    rcases List.mem_cons.mp hmem with h1 | h2
    · rw [← h1] at h
      exact absurd h.1 (by decide)
    · exact numTail_no_lt rest h.2 h2

theorem mem_dropWhile_of_not {α : Type} (p : α → Bool) (l : List α) (c : α)
    (hc : c ∈ l) (hp : p c = false) : c ∈ l.dropWhile p := by
  induction l with
  | nil => simp at hc
  | cons a as ih =>
    rw [List.dropWhile_cons]
    by_cases ha : p a = true
    · rw [if_pos ha]
      rcases List.mem_cons.mp hc with h1 | h2
      · rw [← h1] at ha
        rw [hp] at ha
        cases ha
      · exact ih h2
    · rw [if_neg ha]
      exact hc

theorem mem_pyStrip (c : Char) (s : List Char) (hc : c ∈ s)
    (hw : c.isWhitespace = false) : c ∈ pyStrip s := by
  unfold pyStrip
  rw [List.mem_reverse]
  refine mem_dropWhile_of_not _ _ _ ?_ hw
  rw [List.mem_reverse]
  exact mem_dropWhile_of_not _ _ _ hc hw

theorem pyParseInt_no_lt (d : List Char) (n : Int) (h : pyParseInt d = some n) :
    '<' ∉ d := by
  intro hmem
  have hmem' : '<' ∈ pyStrip d := mem_pyStrip _ _ hmem (by decide)
  unfold pyParseInt at h
  cases hts : pyStrip d with
  | nil =>
    rw [hts] at hmem'
    simp at hmem'
  | cons c rest =>
    rw [hts] at h hmem'
    simp only at h
    by_cases hplus : c = '+'
    · rw [if_pos hplus] at h
      by_cases hcore : numCore rest = true
      · rcases List.mem_cons.mp hmem' with h1 | h2
        · exact absurd (h1.trans hplus) (by decide)
        · exact numCore_no_lt rest hcore h2
      · rw [if_neg hcore] at h
        cases h
    · rw [if_neg hplus] at h
      by_cases hminus : c = '-'
      · rw [if_pos hminus] at h
        by_cases hcore : numCore rest = true
        · rcases List.mem_cons.mp hmem' with h1 | h2
          · exact absurd (h1.trans hminus) (by decide)
          · exact numCore_no_lt rest hcore h2
        · rw [if_neg hcore] at h
          cases h
      · rw [if_neg hminus] at h
        by_cases hcore : numCore (c :: rest) = true
        · exact numCore_no_lt _ hcore hmem'
        · rw [if_neg hcore] at h
          cases h

/-! ## Evaluation of Token ID Recovery at a well-formed final marker -/

/-- If the stripped input is anything followed by a final well-formed marker
`<custom_token_*numeral*>` whose numeral contains no further marker head,
`turn_token_into_id` returns `numeral - 10 - (index % 7) * 4096`, no matter
what precedes the final marker. -/
theorem tti_last_marker_eval (s a d : List Char) (n : Int) (i : Nat)
    (hs : pyStrip s = a ++ (CUSTOM_TOKEN_START ++ (d ++ ['>'])))
    (hd : pyParseInt d = some n) :
    turn_token_into_id s i = some (n - 10 - ((i % 7 : Nat) : Int) * 4096) := by
  have hdlt : '<' ∉ d := pyParseInt_no_lt d n hd
  have hdrop : (a ++ (CUSTOM_TOKEN_START ++ (d ++ ['>']))).drop a.length
      = CUSTOM_TOKEN_START ++ (d ++ ['>']) := List.drop_left a _
  have hocc : CUSTOM_TOKEN_START.isPrefixOf
      ((a ++ (CUSTOM_TOKEN_START ++ (d ++ ['>']))).drop a.length) = true := by
    rw [hdrop]
    exact List.isPrefixOf_iff_prefix.mpr (List.prefix_append _ _)
  have hmax : ∀ j, a.length < j → CUSTOM_TOKEN_START.isPrefixOf
      ((a ++ (CUSTOM_TOKEN_START ++ (d ++ ['>']))).drop j) = false := by
    intro j hj
    by_contra hcon
    rw [Bool.not_eq_false] at hcon
    obtain ⟨r, hr⟩ := List.isPrefixOf_iff_prefix.mp hcon
    have hhead : ((a ++ (CUSTOM_TOKEN_START ++ (d ++ ['>']))).drop j).head? = some '<' := by
      rw [← hr]
      rfl
    obtain ⟨k, hk⟩ : ∃ k, j - a.length = k + 1 := ⟨j - a.length - 1, by omega⟩
    have hj' : (a ++ (CUSTOM_TOKEN_START ++ (d ++ ['>']))).drop j
        = (CUSTOM_TOKEN_START ++ (d ++ ['>'])).drop (k + 1) := by
      conv_rhs => rw [← hdrop, List.drop_drop]
      congr 1
      omega
    have hsplit : CUSTOM_TOKEN_START ++ (d ++ ['>'])
        = '<' :: ("custom_token_".data ++ (d ++ ['>'])) := rfl
    rw [hj', hsplit, List.drop_succ_cons, List.head?_drop] at hhead
    have hmem : '<' ∈ "custom_token_".data ++ (d ++ ['>']) := List.getElem?_mem hhead
    rcases List.mem_append.mp hmem with h1 | h2
    · revert h1
      decide
    · rcases List.mem_append.mp h2 with h3 | h4
      · exact hdlt h3
      · revert h4
        decide
  have hrf : rfindIdx CUSTOM_TOKEN_START (a ++ (CUSTOM_TOKEN_START ++ (d ++ ['>'])))
      = some a.length := by
    refine rfindIdx_intro _ _ _ ?_ hocc hmax
    simp
  have hgl : (CUSTOM_TOKEN_START ++ (d ++ ['>'])).getLast? = some '>' := by
    rw [show CUSTOM_TOKEN_START ++ (d ++ ['>']) = (CUSTOM_TOKEN_START ++ d) ++ ['>'] from
      (List.append_assoc _ _ _).symm]
    exact List.getLast?_concat _
  simp only [turn_token_into_id, hs, hrf, hdrop]
  rw [if_pos ⟨List.isPrefixOf_iff_prefix.mpr (List.prefix_append _ _), hgl⟩]
  rw [List.drop_left, List.dropLast_concat, hd]

/-! ## `pyStrip` idempotence on stripped suffixes -/

theorem dropWhile_eq_self_of_head {α : Type} (p : α → Bool) (l : List α)
    (h : ∀ c, l.head? = some c → p c = false) : l.dropWhile p = l := by
  cases l with
  | nil => rfl
  | cons a as =>
    have := h a rfl
    rw [List.dropWhile_cons, this]
    simp

theorem head?_dropWhile_not {α : Type} (p : α → Bool) (l : List α) (c : α)
    (h : (l.dropWhile p).head? = some c) : p c = false := by
  induction l with
  | nil => simp [List.dropWhile] at h
  | cons a as ih =>
    rw [List.dropWhile_cons] at h
    by_cases ha : p a = true
    · rw [if_pos ha] at h
      exact ih h
    · rw [if_neg ha] at h
      obtain rfl : a = c := by injection h
      simpa using ha

theorem pyStrip_getLast_not_ws (s : List Char) (c : Char)
    (h : (pyStrip s).getLast? = some c) : c.isWhitespace = false := by
  unfold pyStrip at h
  rw [List.getLast?_reverse] at h
  exact head?_dropWhile_not _ _ _ h

theorem pyStrip_eq_self (x : List Char)
    (hh : ∀ c, x.head? = some c → c.isWhitespace = false)
    (hl : ∀ c, x.getLast? = some c → c.isWhitespace = false) :
    pyStrip x = x := by
  unfold pyStrip
  rw [dropWhile_eq_self_of_head _ _ hh]
  rw [dropWhile_eq_self_of_head]
  · exact List.reverse_reverse x
  · intro c hc
    rw [List.head?_reverse] at hc
    exact hl c hc

theorem getLast?_drop_of_ne_nil {α : Type} (l : List α) (k : Nat)
    (h : l.drop k ≠ []) : (l.drop k).getLast? = l.getLast? := by
  conv_rhs => rw [← List.take_append_drop k l]
  rw [List.getLast?_append_of_ne_nil _ h]

/-- Token ID Recovery honours only the substring that starts at the last
occurrence of the marker head: recovering from the whole string and from
that suffix alone give the same result. -/
theorem tti_suffix_equiv (s : List Char) (i k : Nat)
    (h : rfindIdx CUSTOM_TOKEN_START (pyStrip s) = some k) :
    turn_token_into_id s i = turn_token_into_id ((pyStrip s).drop k) i := by
  obtain ⟨hP, hmax⟩ := rfindIdx_some _ _ _ (by decide) h
  obtain ⟨r, hr⟩ := List.isPrefixOf_iff_prefix.mp hP
  have hxne : (pyStrip s).drop k ≠ [] := by
    rw [← hr]
    simp [CUSTOM_TOKEN_START]
  have hxhead : ∀ c, ((pyStrip s).drop k).head? = some c → c.isWhitespace = false := by
    intro c hc
    rw [← hr] at hc
    obtain rfl : '<' = c := by injection hc
    decide
  have hxlast : ∀ c, ((pyStrip s).drop k).getLast? = some c → c.isWhitespace = false := by
    intro c hc
    rw [getLast?_drop_of_ne_nil _ _ hxne] at hc
    exact pyStrip_getLast_not_ws s c hc
  have hstrip : pyStrip ((pyStrip s).drop k) = (pyStrip s).drop k :=
    pyStrip_eq_self _ hxhead hxlast
  have hxmax : ∀ j, 0 < j →
      CUSTOM_TOKEN_START.isPrefixOf (((pyStrip s).drop k).drop j) = false := by
    intro j hj
    by_contra hcon
    rw [Bool.not_eq_false] at hcon
    rw [List.drop_drop] at hcon
    have := hmax (k + j) hcon
    omega
  have hrfx : rfindIdx CUSTOM_TOKEN_START ((pyStrip s).drop k) = some 0 := by
    refine rfindIdx_intro _ _ _ (Nat.zero_le _) ?_ hxmax
    rw [List.drop_zero]
    exact hP
  simp only [turn_token_into_id, h, hstrip, hrfx, List.drop_zero]

/-! ## Claim theorems -/

/-- C2: in every run of the streaming audio assembler in which `N` valid
(positive) token IDs are accepted in total, the token decoder is invoked
exactly `max(0, (N - 28) / 7 + 1)` times when `N ≥ 28` and `0` times when
`N < 28`; each invocation occurs exactly when the accepted-token counter is
a multiple of 7 greater than 27 and consumes exactly the last 28 accepted
token IDs in order together with the current counter value. -/
theorem C2_decode_cadence (decoder : List Int → Nat → Option ByteChunk)
    (fragments : List (List Char)) :
    ((runAssembler decoder fragments).calls.length =
      if 28 ≤ (runAssembler decoder fragments).count
      then ((runAssembler decoder fragments).count - 28) / 7 + 1 else 0) ∧
    ∀ wc ∈ (runAssembler decoder fragments).calls,
      wc.2 % 7 = 0 ∧ 27 < wc.2 ∧ wc.2 ≤ (runAssembler decoder fragments).count ∧
      wc.1.length = 28 ∧
      wc.1 = ((runAssembler decoder fragments).buffer.take wc.2).drop (wc.2 - 28) := by
  obtain ⟨h1, h2, h3⟩ := runAssembler_inv decoder fragments
  refine ⟨by rw [h2]; rfl, fun wc hwc => ?_⟩
  obtain ⟨a1, a2, a3, a4, a5⟩ := h3 wc hwc
  exact ⟨a1, a2, a3, a5, a4⟩

set_option maxRecDepth 1000000 in
theorem C2_decode_cadence_witness :
    ((runAssembler cadenceDecoder cadenceFrags).calls.length =
      if 28 ≤ (runAssembler cadenceDecoder cadenceFrags).count
      then ((runAssembler cadenceDecoder cadenceFrags).count - 28) / 7 + 1 else 0) ∧
    (cadenceCall.2 % 7 = 0 ∧ 27 < cadenceCall.2 ∧
     cadenceCall.2 ≤ (runAssembler cadenceDecoder cadenceFrags).count ∧
     cadenceCall.1.length = 28 ∧
     cadenceCall.1 = ((runAssembler cadenceDecoder cadenceFrags).buffer.take
        cadenceCall.2).drop (cadenceCall.2 - 28)) :=
  ⟨(C2_decode_cadence cadenceDecoder cadenceFrags).1,
   (C2_decode_cadence cadenceDecoder cadenceFrags).2 cadenceCall (by decide)⟩

/-- C6: a fragment part for which Token ID Recovery yields no token, or a
recovered value of 0 or below, is discarded: the whole assembler state
(window, counter, decoder calls, output) is unchanged; and a fragment that
does not contain the marker head anywhere leaves the state unchanged as
well. -/
theorem C6_invalid_tokens_discarded :
    (∀ (decoder : List Int → Nat → Option ByteChunk) (st : DecState)
       (tok : List Char),
      (turn_token_into_id tok st.count = none ∨
       ∃ v, turn_token_into_id tok st.count = some v ∧ v ≤ 0) →
      stepToken decoder st tok = st) ∧
    (∀ (decoder : List Int → Nat → Option ByteChunk) (st : DecState)
       (chunk : List Char),
      containsSeq CUSTOM_TOKEN_START chunk = false →
      processChunk decoder st chunk = st) :=
  ⟨stepToken_discard, processChunk_no_marker⟩

theorem C6_invalid_tokens_discarded_witness :
    stepToken cadenceDecoder initState ("hello".data) = initState ∧
    stepToken cadenceDecoder initState ("<custom_token_9>".data) = initState ∧
    processChunk cadenceDecoder initState ("no marker here".data) = initState :=
  ⟨C6_invalid_tokens_discarded.1 _ _ _ (Or.inl (by decide)),
   C6_invalid_tokens_discarded.1 _ _ _ (Or.inr ⟨(-1 : Int), by decide, by decide⟩),
   C6_invalid_tokens_discarded.2 _ _ _ (by decide)⟩

/-- C9: throughout every run of the assembler the accepted-token counter
equals the length of the decode-window buffer, the buffer grows append-only
(the buffer after any prefix of the fragment stream is a prefix of the
buffer after any extension), and every decoder invocation received exactly
the 28 most recently accepted token IDs in acceptance order (the slice of
the buffer ending at the counter value at the time of the call). -/
theorem C9_window_counter_invariant (decoder : List Int → Nat → Option ByteChunk)
    (frags₁ frags₂ : List (List Char)) :
    (runAssembler decoder frags₁).count = (runAssembler decoder frags₁).buffer.length ∧
    (runAssembler decoder frags₁).buffer <+:
      (runAssembler decoder (frags₁ ++ frags₂)).buffer ∧
    ∀ wc ∈ (runAssembler decoder frags₁).calls,
      wc.1.length = 28 ∧
      wc.1 = ((runAssembler decoder frags₁).buffer.take wc.2).drop (wc.2 - 28) := by
  obtain ⟨h1, _, h3⟩ := runAssembler_inv decoder frags₁
  refine ⟨h1, runAssembler_buffer_grows decoder frags₁ frags₂, fun wc hwc => ?_⟩
  obtain ⟨_, _, _, a4, a5⟩ := h3 wc hwc
  exact ⟨a5, a4⟩

set_option maxRecDepth 1000000 in
theorem C9_window_counter_invariant_witness :
    (runAssembler cadenceDecoder cadenceFrags).count
      = (runAssembler cadenceDecoder cadenceFrags).buffer.length ∧
    (runAssembler cadenceDecoder cadenceFrags).buffer <+:
      (runAssembler cadenceDecoder
        (cadenceFrags ++ [("<custom_token_30000>".data)])).buffer ∧
    (cadenceCall.1.length = 28 ∧
     cadenceCall.1 = ((runAssembler cadenceDecoder cadenceFrags).buffer.take
        cadenceCall.2).drop (cadenceCall.2 - 28)) :=
  ⟨(C9_window_counter_invariant cadenceDecoder cadenceFrags
      [("<custom_token_30000>".data)]).1,
   (C9_window_counter_invariant cadenceDecoder cadenceFrags
      [("<custom_token_30000>".data)]).2.1,
   (C9_window_counter_invariant cadenceDecoder cadenceFrags
      [("<custom_token_30000>".data)]).2.2 cadenceCall (by decide)⟩

/-- C3 (counterexample): the claim also asserts that a string which does not
match the begins-with-marker shape yields `none`; but
`"abc<custom_token_15>"` does not begin with the marker head after
stripping, and recovery still returns `some 5` (the last-occurrence rule),
not `none`. -/
theorem C3_counterexample :
    turn_token_into_id ("abc<custom_token_15>".data) 0 = some 5 ∧
    ¬ CUSTOM_TOKEN_START.isPrefixOf (pyStrip ("abc<custom_token_15>".data)) = true := by
  decide

/-- C3 (amended): if the stripped marker string is exactly
`<custom_token_` ++ numeral ++ `>` with parseable numeral `n`, recovery at
index `i` returns `n - 10 - 4096 * (i % 7)`. A `none` result is returned,
rather than an error, when the string contains no occurrence of the marker
head at all, or when the substring from the last such occurrence does not
end with `>` or its embedded numeral is not parseable. (The original
claim's negative clause — `none` for every string that merely fails to
begin with the marker — is false; the shape test applies to the suffix
starting at the last occurrence.) -/
theorem C3_amended_marker_parse :
    (∀ (s d : List Char) (n : Int) (i : Nat),
      pyStrip s = CUSTOM_TOKEN_START ++ (d ++ ['>']) →
      pyParseInt d = some n →
      turn_token_into_id s i = some (n - 10 - ((i % 7 : Nat) : Int) * 4096)) ∧
    (∀ (s : List Char) (i : Nat),
      rfindIdx CUSTOM_TOKEN_START (pyStrip s) = none →
      turn_token_into_id s i = none) ∧
    (∀ (s : List Char) (i k : Nat),
      rfindIdx CUSTOM_TOKEN_START (pyStrip s) = some k →
      (((pyStrip s).drop k).getLast? ≠ some '>' ∨
       pyParseInt ((((pyStrip s).drop k).drop
          CUSTOM_TOKEN_START.length).dropLast) = none) →
      turn_token_into_id s i = none) := by
  refine ⟨?_, ?_, ?_⟩
  · intro s d n i hs hd
    exact tti_last_marker_eval s [] d n i hs hd
  · intro s i h
    simp only [turn_token_into_id, h]
  · intro s i k h hbad
    simp only [turn_token_into_id, h]
    rcases hbad with hb | hb
    · rw [if_neg (fun hc => hb hc.2)]
    · by_cases hcond : CUSTOM_TOKEN_START.isPrefixOf ((pyStrip s).drop k) = true ∧
          ((pyStrip s).drop k).getLast? = some '>'
      · rw [if_pos hcond, hb]
      · rw [if_neg hcond]

theorem C3_amended_marker_parse_witness :
    turn_token_into_id ("<custom_token_123>".data) 5
      = some (123 - 10 - ((5 % 7 : Nat) : Int) * 4096) ∧
    turn_token_into_id ("hello".data) 2 = none ∧
    turn_token_into_id ("x<custom_token_9y>".data) 1 = none :=
  ⟨C3_amended_marker_parse.1 _ ("123".data) 123 5 (by decide) (by decide),
   C3_amended_marker_parse.2.1 _ 2 (by decide),
   C3_amended_marker_parse.2.2 _ 1 1 (by decide) (Or.inr (by decide))⟩

/-- C7: only the last occurrence of the marker head is honoured: recovery
from the whole string equals recovery from the suffix that starts at the
last occurrence, and whenever the stripped string is any text followed by a
final well-formed marker with parseable numeral `n`, the result is
`n - 10 - 4096 * (i % 7)` regardless of earlier markers or interleaved
non-token content. -/
theorem C7_last_marker_wins :
    (∀ (s : List Char) (i k : Nat),
      rfindIdx CUSTOM_TOKEN_START (pyStrip s) = some k →
      turn_token_into_id s i = turn_token_into_id ((pyStrip s).drop k) i) ∧
    (∀ (s a d : List Char) (n : Int) (i : Nat),
      pyStrip s = a ++ (CUSTOM_TOKEN_START ++ (d ++ ['>'])) →
      pyParseInt d = some n →
      turn_token_into_id s i = some (n - 10 - ((i % 7 : Nat) : Int) * 4096)) :=
  ⟨tti_suffix_equiv, tti_last_marker_eval⟩

theorem C7_last_marker_wins_witness :
    turn_token_into_id ("<custom_token_5>junk<custom_token_30>".data) 0
      = turn_token_into_id
          ((pyStrip ("<custom_token_5>junk<custom_token_30>".data)).drop 20) 0 ∧
    turn_token_into_id ("<custom_token_5>junk<custom_token_30>".data) 0
      = some (30 - 10 - ((0 % 7 : Nat) : Int) * 4096) :=
  ⟨C7_last_marker_wins.1 _ 0 20 (by decide),
   C7_last_marker_wins.2 _ ("<custom_token_5>junk".data) ("30".data) 30 0
     (by decide) (by decide)⟩

/-- C8: Token ID Recovery is a deterministic pure function — equal marker
strings and equal indices give the same result — and the position-dependent
correction is periodic with period 7 in the index. -/
theorem C8_deterministic_periodic :
    (∀ (s s' : List Char) (i i' : Nat), s = s' → i = i' →
      turn_token_into_id s i = turn_token_into_id s' i') ∧
    (∀ (s : List Char) (i : Nat),
      turn_token_into_id s (i + 7) = turn_token_into_id s i) := by
  refine ⟨fun s s' i i' hs hi => by rw [hs, hi], fun s i => ?_⟩
  simp only [turn_token_into_id, Nat.add_mod_right]

theorem C8_deterministic_periodic_witness :
    turn_token_into_id ("<custom_token_123>".data) 3
      = turn_token_into_id ("<custom_token_123>".data) 3 ∧
    turn_token_into_id ("<custom_token_123>".data) (2 + 7)
      = turn_token_into_id ("<custom_token_123>".data) 2 :=
  ⟨C8_deterministic_periodic.1 _ _ _ _ rfl rfl,
   C8_deterministic_periodic.2 _ 2⟩

/-! ## Endpoint-level lemmas -/

theorem generate_speech_failure_not_written (d : Bool)
    (dec : List Int → Nat → Option ByteChunk) (je : JsonExtract) :
    (generate_speech_via_api_and_decode d dec je ApiResponse.failure).audio_written
      = false := by
  cases d <;> rfl

/-- The fallback block entered with `synthesis_method_used = "none"` either
returns the streaming engine's audio or an error 400 or 500; the 503 branch
of line 303 is dead because the 400 branch of line 300 tests the same
`synthesis_method_used == "none"` condition first. -/
theorem fallbackBlock_none_cases (env : WorkerEnv) (language : String)
    (kp : Bool) :
    (∃ bs, orpheusFallbackBlock env language "none" kp
        = TtsResponse.audio "orpheus" bs) ∨
    orpheusFallbackBlock env language "none" kp = TtsResponse.error 400 ∨
    orpheusFallbackBlock env language "none" kp = TtsResponse.error 500 := by
  unfold orpheusFallbackBlock
  by_cases h1 : ORPHEUS_TTS_AVAILABLE env = true ∧
      ((orpheus_api_configs env).lookup language).isSome = true
  · rw [if_pos h1]
    by_cases h2 : (generate_speech_via_api_and_decode env.decoderAvailable
        env.decoder env.jsonExtract env.orpheusResp).audio_written = true
    · rw [if_pos h2]
      exact Or.inl ⟨_, rfl⟩
    · rw [if_neg h2]
      exact Or.inr (Or.inr rfl)
  · rw [if_neg h1, if_pos rfl]
    exact Or.inr (Or.inl rfl)

theorem endpoint_cases (env : WorkerEnv) (language : String) :
    (∃ m bs, synthesize_speech_endpoint env language = TtsResponse.audio m bs) ∨
    synthesize_speech_endpoint env language = TtsResponse.error 400 ∨
    synthesize_speech_endpoint env language = TtsResponse.error 500 := by
  have hlift : ∀ kp : Bool,
      (∃ m bs, orpheusFallbackBlock env language "none" kp
          = TtsResponse.audio m bs) ∨
      orpheusFallbackBlock env language "none" kp = TtsResponse.error 400 ∨
      orpheusFallbackBlock env language "none" kp = TtsResponse.error 500 := by
    intro kp
    rcases fallbackBlock_none_cases env language kp with ⟨bs, h⟩ | h | h
    · exact Or.inl ⟨"orpheus", bs, h⟩
    · exact Or.inr (Or.inl h)
    · exact Or.inr (Or.inr h)
  unfold synthesize_speech_endpoint
  cases KOKORO_LANGUAGE_CONFIG.lookup language with
  | none => exact hlift false
  | some kcfg =>
    simp only
    by_cases h1 : KOKORO_TTS_AVAILABLE env = true
    · rw [if_pos h1]
      by_cases h2 : env.kokoroPipelines.contains kcfg.kokoro_lang_code = true
      · rw [if_pos h2]
        by_cases h3 : env.kokoroResult = true
        · rw [if_pos h3]
          exact Or.inl ⟨"kokoro", env.kokoroBytes, rfl⟩
        · rw [if_neg h3]
          exact Or.inr (Or.inr rfl)
      · rw [if_neg h2]
        exact hlift true
    · rw [if_neg h1]
      exact hlift true

set_option maxRecDepth 1000000 in
/-- C1 (counterexample): in `envKokoroFails` the language `"en"` has a
configured, available local engine (pipeline `"a"` loaded) whose attempt
fails, and a configured streaming engine that succeeds (the fallback block,
were it reached, would return the streaming audio) — yet the endpoint
answers error 500, surfacing the local failure instead of falling back. -/
theorem C1_counterexample :
    KOKORO_TTS_AVAILABLE envKokoroFails = true ∧
    KOKORO_LANGUAGE_CONFIG.lookup "en" = some ⟨"a", "af_heart"⟩ ∧
    envKokoroFails.kokoroPipelines.contains "a" = true ∧
    envKokoroFails.kokoroResult = false ∧
    ORPHEUS_TTS_AVAILABLE envKokoroFails = true ∧
    orpheusFallbackBlock envKokoroFails "en" "none" true
      = TtsResponse.audio "orpheus" [[1]] ∧
    synthesize_speech_endpoint envKokoroFails "en" = TtsResponse.error 500 := by
  refine ⟨by decide, by decide, by decide, rfl, by decide, by decide, by decide⟩

/-- C1 (amended): when the local engine is attempted — language configured
for Kokoro, Kokoro available, pipeline loaded — and the attempt fails, the
endpoint surfaces the failure as error 500 and the streaming engine is not
tried. The streaming engine serves the request only when the local engine
was not attempted (unconfigured language, Kokoro unavailable, or pipeline
not loaded); in that case a successful streaming synthesis yields the
streaming engine's audio as the final response. -/
theorem C1_amended_no_fallback_on_local_failure :
    (∀ (env : WorkerEnv) (language : String) (c : KokoroCfg),
      KOKORO_LANGUAGE_CONFIG.lookup language = some c →
      KOKORO_TTS_AVAILABLE env = true →
      env.kokoroPipelines.contains c.kokoro_lang_code = true →
      env.kokoroResult = false →
      synthesize_speech_endpoint env language = TtsResponse.error 500) ∧
    (∀ (env : WorkerEnv) (language : String),
      (KOKORO_LANGUAGE_CONFIG.lookup language = none ∨
       KOKORO_TTS_AVAILABLE env = false ∨
       (∀ c, KOKORO_LANGUAGE_CONFIG.lookup language = some c →
         env.kokoroPipelines.contains c.kokoro_lang_code = false)) →
      ORPHEUS_TTS_AVAILABLE env = true →
      ((orpheus_api_configs env).lookup language).isSome = true →
      (generate_speech_via_api_and_decode env.decoderAvailable env.decoder
        env.jsonExtract env.orpheusResp).audio_written = true →
      synthesize_speech_endpoint env language =
        TtsResponse.audio "orpheus"
          (generate_speech_via_api_and_decode env.decoderAvailable env.decoder
            env.jsonExtract env.orpheusResp).frames) := by
  constructor
  · intro env language c hlk hav hpipe hres
    have hres' : ¬ env.kokoroResult = true := by
      rw [hres]
      exact Bool.false_ne_true
    unfold synthesize_speech_endpoint
    rw [hlk]
    simp only
    rw [if_pos hav, if_pos hpipe, if_neg hres']
  · intro env language hnotk hav hsome hwr
    have hfb : ∀ kp, orpheusFallbackBlock env language "none" kp =
        TtsResponse.audio "orpheus"
          (generate_speech_via_api_and_decode env.decoderAvailable env.decoder
            env.jsonExtract env.orpheusResp).frames := by
      intro kp
      unfold orpheusFallbackBlock
      rw [if_pos ⟨hav, hsome⟩, if_pos hwr]
    unfold synthesize_speech_endpoint
    cases hlk : KOKORO_LANGUAGE_CONFIG.lookup language with
    | none => exact hfb false
    | some kcfg =>
      simp only
      rcases hnotk with hnone | hunav | hpipe
      · rw [hlk] at hnone
        cases hnone
      · have hunav' : ¬ KOKORO_TTS_AVAILABLE env = true := by
          rw [hunav]
          exact Bool.false_ne_true
        rw [if_neg hunav']
        exact hfb true
      · by_cases h1 : KOKORO_TTS_AVAILABLE env = true
        · have hpipe' : ¬ env.kokoroPipelines.contains kcfg.kokoro_lang_code = true := by
            rw [hpipe kcfg hlk]
            exact Bool.false_ne_true
          rw [if_pos h1, if_neg hpipe']
          exact hfb true
        · rw [if_neg h1]
          exact hfb true

set_option maxRecDepth 1000000 in
theorem C1_amended_no_fallback_on_local_failure_witness :
    synthesize_speech_endpoint envKokoroFails "en" = TtsResponse.error 500 ∧
    synthesize_speech_endpoint
        (WorkerEnv.mk [] envKokoroFails.decoderAvailable envKokoroFails.kokoroResult envKokoroFails.kokoroBytes envKokoroFails.decoder envKokoroFails.jsonExtract envKokoroFails.orpheusResp) "en"
      = TtsResponse.audio "orpheus"
          (generate_speech_via_api_and_decode
            envKokoroFails.decoderAvailable envKokoroFails.decoder
            envKokoroFails.jsonExtract envKokoroFails.orpheusResp).frames :=
  ⟨C1_amended_no_fallback_on_local_failure.1 envKokoroFails "en"
      ⟨"a", "af_heart"⟩ (by decide) (by decide) (by decide) rfl,
   C1_amended_no_fallback_on_local_failure.2
      (WorkerEnv.mk [] envKokoroFails.decoderAvailable envKokoroFails.kokoroResult envKokoroFails.kokoroBytes envKokoroFails.decoder envKokoroFails.jsonExtract envKokoroFails.orpheusResp) "en"
      (Or.inr (Or.inl (by decide))) (by decide) (by decide) (by decide)⟩

/-- C4: the 400 half of the claim holds (unconfigured language is rejected
with 400 before any engine is invoked), but the 503 half fails: when no TTS
engine is available at all the endpoint still answers 400, because the 503
branch of line 303 repeats the `synthesis_method_used == "none"` test that
the 400 branch of line 300 has already consumed — the endpoint can only
ever answer with audio, 400, or 500. -/
theorem C4_no_engines_divergence :
    synthesize_speech_endpoint envNoEngines "en" = TtsResponse.error 400 ∧
    ∀ (env : WorkerEnv) (language : String),
      (∃ m bs, synthesize_speech_endpoint env language = TtsResponse.audio m bs) ∨
      synthesize_speech_endpoint env language = TtsResponse.error 400 ∨
      synthesize_speech_endpoint env language = TtsResponse.error 500 :=
  ⟨by decide, endpoint_cases⟩

/-- C5: a request-time failure of the streaming HTTP call yields zero
fragments without an exception escaping; consequently the assembler writes
zero frames, `generate_speech_via_api_and_decode` returns failure, and the
endpoint never answers with a streaming-engine audio body built from the
failed call — it answers with the local engine's audio or an error. -/
theorem C5_request_failure_yields_no_audio :
    (∀ je : JsonExtract, generate_tokens_from_api je ApiResponse.failure = []) ∧
    (∀ (dec : List Int → Nat → Option ByteChunk) (je : JsonExtract),
      (generate_speech_via_api_and_decode true dec je ApiResponse.failure).frames
        = [] ∧
      (generate_speech_via_api_and_decode true dec je
        ApiResponse.failure).audio_written = false) ∧
    (∀ (env : WorkerEnv) (language : String),
      env.orpheusResp = ApiResponse.failure →
      synthesize_speech_endpoint env language
          = TtsResponse.audio "kokoro" env.kokoroBytes ∨
      ∃ st, synthesize_speech_endpoint env language = TtsResponse.error st) := by
  refine ⟨fun je => rfl, fun dec je => ⟨rfl, rfl⟩, ?_⟩
  intro env language hresp
  have hfb : ∀ kp, ∃ st, orpheusFallbackBlock env language "none" kp
      = TtsResponse.error st := by
    intro kp
    have hw : ¬ (generate_speech_via_api_and_decode env.decoderAvailable
        env.decoder env.jsonExtract env.orpheusResp).audio_written = true := by
      rw [hresp, generate_speech_failure_not_written]
      exact Bool.false_ne_true
    unfold orpheusFallbackBlock
    by_cases h1 : ORPHEUS_TTS_AVAILABLE env = true ∧
        ((orpheus_api_configs env).lookup language).isSome = true
    · rw [if_pos h1, if_neg hw]
      exact ⟨500, rfl⟩
    · rw [if_neg h1, if_pos rfl]
      exact ⟨400, rfl⟩
  unfold synthesize_speech_endpoint
  cases KOKORO_LANGUAGE_CONFIG.lookup language with
  | none => exact Or.inr (hfb false)
  | some kcfg =>
    simp only
    by_cases h1 : KOKORO_TTS_AVAILABLE env = true
    · rw [if_pos h1]
      by_cases h2 : env.kokoroPipelines.contains kcfg.kokoro_lang_code = true
      · rw [if_pos h2]
        by_cases h3 : env.kokoroResult = true
        · rw [if_pos h3]
          exact Or.inl rfl
        · rw [if_neg h3]
          exact Or.inr ⟨500, rfl⟩
      · rw [if_neg h2]
        exact Or.inr (hfb true)
    · rw [if_neg h1]
      exact Or.inr (hfb true)

theorem C5_request_failure_yields_no_audio_witness :
    generate_tokens_from_api (fun _ => none) ApiResponse.failure = [] ∧
    (generate_speech_via_api_and_decode true (fun _ _ => none) (fun _ => none)
      ApiResponse.failure).audio_written = false ∧
    (synthesize_speech_endpoint envNoEngines "en"
        = TtsResponse.audio "kokoro" envNoEngines.kokoroBytes ∨
     ∃ st, synthesize_speech_endpoint envNoEngines "en"
        = TtsResponse.error st) :=
  ⟨C5_request_failure_yields_no_audio.1 (fun _ => none),
   (C5_request_failure_yields_no_audio.2.1 (fun _ _ => none) (fun _ => none)).2,
   C5_request_failure_yields_no_audio.2.2 envNoEngines "en" rfl⟩

/-- C10: when the decoder module failed to import at startup,
`generate_speech_via_api_and_decode` returns failure immediately for every
input: no HTTP request is issued and no audio frame is written. -/
theorem C10_decoder_unavailable_short_circuit
    (dec : List Int → Nat → Option ByteChunk) (je : JsonExtract)
    (resp : ApiResponse) :
    generate_speech_via_api_and_decode false dec je resp =
      (SynthOutcome.mk false false []) := rfl

end AudioWorker
